import Mathlib

/-!
Shallow embedding of the API key rotation core of the `pal-mcp-server`
repository (`providers/api_key_rotator.py` and the rotation-aware call
logic of `providers/saia.py`), with theorems checking the natural-language
specification against it.

Conventions of the embedding:
* Python `float` timestamps are modelled as `ℚ`; the current wall-clock
  time is passed explicitly as a `now : ℚ` argument wherever the source
  calls `time.time()`.
* Python `dict` objects (header maps, the key → tracker registry) are
  modelled as association lists with first-match lookup.
* A Python function that can raise is modelled with an explicit outcome
  type; a function that cannot raise is a plain total function.
* Leading underscores of private Python methods are dropped from names
  (`_update_key_usage` becomes `update_key_usage`, and so on).
-/

/-- Characters treated as whitespace by Python `str.strip()` (ASCII portion). -/
def isPySpace (c : Char) : Bool :=
  c = ' ' || c = '\t' || c = '\n' || c = '\r' || c = '\x0b' || c = '\x0c'

/-- Model of Python `str.strip()`: drop leading and trailing whitespace. -/
def pyStrip (s : String) : String :=
  String.mk (((s.toList.dropWhile isPySpace).reverse.dropWhile isPySpace).reverse)

/-- Numeric value of a decimal digit character. -/
def digitVal (c : Char) : Nat := c.toNat - 48

/-- Whether a character is a decimal digit. -/
def isDigitChar (c : Char) : Bool := '0' ≤ c && c ≤ '9'

/-- Value of a list of decimal digit characters, most significant first. -/
def natOfDigits (l : List Char) : Nat :=
  l.foldl (fun a c => a * 10 + digitVal c) 0

/-- Parse a non-empty all-digit character list into a natural number. -/
def parseDigits (l : List Char) : Option Nat :=
  if l ≠ [] ∧ l.all isDigitChar then some (natOfDigits l) else none

/-- Model of Python `int(s)` on its usual inputs: optional surrounding
whitespace, an optional sign, then decimal digits.  (Underscore separators
and non-decimal bases are not modelled; none of the verified properties
depend on them.)  Conversion failure is `none`, modelling `ValueError`. -/
def pyParseInt (s : String) : Option Int :=
  match (pyStrip s).toList with
  | [] => none
  | c :: rest =>
    if c = '+' then (parseDigits rest).map Int.ofNat
    else if c = '-' then (parseDigits rest).map (fun n => -Int.ofNat n)
    else (parseDigits (c :: rest)).map Int.ofNat

/-- Unsigned part of Python `float(s)`: `digits [. digits]` with at least
one digit present.  Exponent and `inf`/`nan` forms are not modelled. -/
def parseUnsignedFloat (l : List Char) : Option ℚ :=
  let ip := l.takeWhile isDigitChar
  match l.dropWhile isDigitChar with
  | [] => if ip = [] then none else some (mkRat (natOfDigits ip) 1)
  | '.' :: fp =>
      if fp.all isDigitChar ∧ (ip ≠ [] ∨ fp ≠ []) then
        some (mkRat (natOfDigits ip * 10 ^ fp.length + natOfDigits fp) (10 ^ fp.length))
      else none
  | _ => none

/-- Model of Python `float(s)` on its usual inputs, as a rational.
Conversion failure is `none`, modelling `ValueError`. -/
def pyParseFloat (s : String) : Option ℚ :=
  match (pyStrip s).toList with
  | [] => none
  | c :: rest =>
    if c = '+' then parseUnsignedFloat rest
    else if c = '-' then (parseUnsignedFloat rest).map Neg.neg
    else parseUnsignedFloat (c :: rest)

/-- Rotation strategies (`RotationStrategy` string constants in the source). -/
inductive RotationStrategy where
  | round_robin
  | least_used
  | random
deriving DecidableEq

/-- Usage statistics for a single API key (`KeyUsageTracker` dataclass).
The source declares `requests_remaining : int`, but the update path can
store Python `None` into it, so it is modelled as `Option Int`. -/
structure KeyUsageTracker where
  requests_remaining : Option Int := some 999999
  requests_limit : Int := 1000
  last_reset_time : ℚ := 0
  last_used_time : ℚ := 0
  is_exhausted : Bool := false
  backoff_until : ℚ := 0
deriving DecidableEq

/-- Parsed rate limit information from response headers
(`RateLimitHeaders` dataclass). -/
structure RateLimitHeaders where
  limit_minute : Option Int := none
  limit_hour : Option Int := none
  limit_day : Option Int := none
  remaining_minute : Option Int := none
  remaining_hour : Option Int := none
  remaining_day : Option Int := none
  reset_time : Option ℚ := none
deriving DecidableEq

/-- State of an `APIKeyRotator` instance.  `usage_trackers` models the
insertion-ordered Python dict mapping each key to its tracker. -/
structure APIKeyRotator where
  api_keys : List String
  strategy : RotationStrategy
  backoff_seconds : ℚ
  usage_trackers : List (String × KeyUsageTracker)
  current_index : Nat
deriving DecidableEq

/-- Construction failure: no valid API keys (`ValueError` in the source,
the `ConfigurationError` of the specification's taxonomy). -/
inductive RotatorError where
  | configurationError
deriving DecidableEq

/-- Model of `dict.fromkeys`-based deduplication: keep the first
occurrence of each string, preserving order. -/
def dedupFirst : List String → List String
  | [] => []
  | k :: ks => k :: (dedupFirst ks).filter (fun x => x != k)

/-- Model of `APIKeyRotator.__init__`: reject an empty list, strip keys,
drop blanks, deduplicate preserving first-seen order, reject an empty
result, and give every remaining key a fresh tracker. -/
def APIKeyRotator.init (api_keys : List String) (strategy : RotationStrategy)
    (backoff_seconds : ℚ) (t0 : ℚ) : Except RotatorError APIKeyRotator :=
  if api_keys = [] then .error .configurationError
  else
    let cleaned := (api_keys.filter (fun k => k != "" && pyStrip k != "")).map pyStrip
    let deduped := dedupFirst cleaned
    if deduped = [] then .error .configurationError
    else .ok
      { api_keys := deduped
        strategy := strategy
        backoff_seconds := backoff_seconds
        usage_trackers :=
          deduped.map (fun k => (k, { last_reset_time := t0, last_used_time := t0 }))
        current_index := 0 }

/-- First-match lookup in a header map (Python `headers[key]` guarded by
`key in headers`). -/
def headerLookup (headers : List (String × String)) (name : String) : Option String :=
  List.lookup name headers

/-- One iteration of the header-parsing loop: `if key in headers: try
setattr(result, attr, int(headers[key])) except (ValueError, TypeError):
pass`.  A missing header or failed conversion leaves the field as it was. -/
def setIntField (cur : Option Int) (headers : List (String × String))
    (name : String) : Option Int :=
  match headerLookup headers name with
  | none => cur
  | some s =>
    match pyParseInt s with
    | none => cur
    | some n => some n

/-- Model of `_parse_rate_limit_headers`: run the integer-parsing loop
over the seven recognized headers, then overwrite `reset_time` with the
absolute timestamp `now + float(headers["ratelimit-reset"])` when that
conversion succeeds. -/
def parse_rate_limit_headers (headers : List (String × String)) (now : ℚ) :
    RateLimitHeaders :=
  let r : RateLimitHeaders :=
    { limit_minute := setIntField none headers "x-ratelimit-limit-minute"
      limit_hour := setIntField none headers "x-ratelimit-limit-hour"
      limit_day := setIntField none headers "x-ratelimit-limit-day"
      remaining_minute := setIntField none headers "x-ratelimit-remaining-minute"
      remaining_hour := setIntField none headers "x-ratelimit-remaining-hour"
      remaining_day := setIntField none headers "x-ratelimit-remaining-day"
      reset_time := (setIntField none headers "ratelimit-reset").map (fun n => mkRat n 1) }
  match headerLookup headers "ratelimit-reset" with
  | none => r
  | some s =>
    match pyParseFloat s with
    | none => r
    | some v => { r with reset_time := some (now + v) }

/-- Replace the tracker stored under `k` in the registry map. -/
def updateTracker (k : String) (t : KeyUsageTracker)
    (m : List (String × KeyUsageTracker)) : List (String × KeyUsageTracker) :=
  m.map (fun p => if p.1 = k then (k, t) else p)

/-- Outcome of `_update_key_usage`: either a normal return or a Python
`TypeError` (raised by `remaining < 10` when `remaining` is `None`); both
carry the registry state left behind. -/
inductive UpdateOutcome where
  | normal (state : APIKeyRotator)
  | typeError (state : APIKeyRotator)
deriving DecidableEq

/-- Model of `_update_key_usage` as written in the source: it returns
immediately when the minute-window remaining header IS present (the
inverted guard on line 154), and otherwise proceeds with
`remaining = None`, mutating the tracker and then raising `TypeError`
at the comparison `remaining < 10`. -/
def update_key_usage (r : APIKeyRotator) (api_key : String)
    (headers : List (String × String)) (now : ℚ) : UpdateOutcome :=
  let rate_limits := parse_rate_limit_headers headers now
  if rate_limits.remaining_minute ≠ none then .normal r
  else
    let remaining : Option Int := rate_limits.remaining_minute
    let limit : Int :=
      match rate_limits.limit_minute with
      | some l => if l ≠ 0 then l else 1000
      | none => 1000
    match List.lookup api_key r.usage_trackers with
    | none => .normal r
    | some tracker =>
      let tracker1 :=
        { tracker with
          requests_remaining := remaining
          requests_limit := limit
          last_reset_time := now
          last_used_time := now }
      match remaining with
      | some v =>
        let tracker2 := { tracker1 with is_exhausted := decide (v < 10) }
        .normal { r with usage_trackers := updateTracker api_key tracker2 r.usage_trackers }
      | none =>
        .typeError { r with usage_trackers := updateTracker api_key tracker1 r.usage_trackers }

/-- One iteration of the candidate loop of `get_next_key` (source lines
187-205): an untracked key is a candidate; a non-exhausted key is checked
for backoff expiry (resetting its tracker when expired) and is a candidate
either way; an exhausted key is skipped.  The pair returned is the
candidate contributed (if any) and the rotator state afterwards. -/
def passKey (r : APIKeyRotator) (now : ℚ) (k : String) : Option String × APIKeyRotator :=
  match List.lookup k r.usage_trackers with
  | none => (some k, r)
  | some t =>
    if t.is_exhausted = false then
      if t.backoff_until < now then
        let t2 := { t with is_exhausted := false, requests_remaining := some t.requests_limit }
        (some k, { r with usage_trackers := updateTracker k t2 r.usage_trackers })
      else (some k, r)
    else (none, r)

/-- The candidate-collection loop of `get_next_key`, threading tracker
mutations left to right over a key list. -/
def evalPassAux (now : ℚ) : APIKeyRotator → List String → List String × APIKeyRotator
  | r, [] => ([], r)
  | r, k :: ks =>
    match passKey r now k with
    | (o, r1) =>
      match evalPassAux now r1 ks with
      | (rest, r2) => (o.toList ++ rest, r2)

/-- The candidate-collection loop of `get_next_key` over the configured keys. -/
def evalPass (r : APIKeyRotator) (now : ℚ) : List String × APIKeyRotator :=
  evalPassAux now r r.api_keys

/-- Modelled from the spec: headroom value used by the least-used strategy
("the candidate with the highest requestsRemaining"); an untracked key or a
tracker holding `None` counts as zero headroom. -/
def trackerHeadroom (r : APIKeyRotator) (k : String) : Int :=
  match List.lookup k r.usage_trackers with
  | none => 0
  | some t => t.requests_remaining.getD 0

/-- Modelled from the spec: keep the candidate with strictly larger
headroom, ties broken by earlier (registry) order. -/
def pickMax (r : APIKeyRotator) (best : String) : List String → String
  | [] => best
  | c :: cs =>
    if trackerHeadroom r best < trackerHeadroom r c then pickMax r c cs
    else pickMax r best cs

/-- Modelled from the spec: the strategy dispatch of `get_next_key` (the
source file is truncated before it).  Round-robin indexes the candidate
list by the shared cursor modulo its length and advances the cursor by one;
least-used picks the maximal-headroom candidate; random consumes the `rnd`
oracle modulo the candidate count. -/
def selectFromCandidates (r : APIKeyRotator) (cands : List String) (rnd : Nat) :
    String × APIKeyRotator :=
  match r.strategy with
  | .round_robin =>
    (cands.getD (r.current_index % cands.length) "",
     { r with current_index := r.current_index + 1 })
  | .least_used =>
    (match cands with
     | [] => ""
     | c :: cs => pickMax r c cs, r)
  | .random => (cands.getD (rnd % cands.length) "", r)

/-- Result of `get_next_key`: the selected key, the snapshot returned with
it, the rotator state afterwards, and how long the call slept. -/
structure NextKeyResult where
  key : String
  info : Option RateLimitHeaders
  state : APIKeyRotator
  slept : ℚ
deriving DecidableEq

/-- Model of `get_next_key`.  The candidate loop and the empty-candidate
sleep are translated from the source (lines 184-210); the source file
breaks off right after `time.sleep`, so the rest is Modelled from the
spec: after sleeping one backoff interval the loop is re-evaluated once,
then the configured strategy is applied over the candidate list — falling
back to the full configured key list when it is still empty, because
`nextKey` "never fails ... and returns a key anyway" — and the snapshot
returned with the key is `none` (no tracker stores an observed snapshot). -/
def get_next_key (r : APIKeyRotator) (now : ℚ) (skip_exhausted : Bool) (rnd : Nat) :
    NextKeyResult :=
  match evalPass r now with
  | (avail, r1) =>
    if avail = [] then
      if skip_exhausted then
        match evalPass r1 (now + r.backoff_seconds) with
        | (avail2, r2) =>
          if avail2 = [] then
            match selectFromCandidates r2 r2.api_keys rnd with
            | (k, r3) => ⟨k, none, r3, r.backoff_seconds⟩
          else
            match selectFromCandidates r2 avail2 rnd with
            | (k, r3) => ⟨k, none, r3, r.backoff_seconds⟩
      else
        match selectFromCandidates r1 r1.api_keys rnd with
        | (k, r2) => ⟨k, none, r2, 0⟩
    else
      match selectFromCandidates r1 avail rnd with
      | (k, r2) => ⟨k, none, r2, 0⟩

/-- Modelled from the spec: `mark_key_exhausted` (absent from the truncated
source file; spec section 4.4) forces `isExhausted = true` and
`backoffUntil = now + backoffSeconds` on the key tracker, regardless of the
last observed remaining count.  A key without a tracker is untouched. -/
def mark_key_exhausted (r : APIKeyRotator) (api_key : String) (now : ℚ) : APIKeyRotator :=
  match List.lookup api_key r.usage_trackers with
  | none => r
  | some t =>
    let t2 := { t with is_exhausted := true, backoff_until := now + r.backoff_seconds }
    { r with usage_trackers := updateTracker api_key t2 r.usage_trackers }

/-- Contiguous-substring test on character lists (Python `in` on strings). -/
def containsSub (pat : List Char) : List Char → Bool
  | [] => pat.isEmpty
  | c :: rest => pat.isPrefixOf (c :: rest) || containsSub pat rest

/-- Python `pat in s` for strings. -/
def strContains (s pat : String) : Bool := containsSub pat.toList s.toList

/-- Python `str.lower()` (character-wise ASCII lowercase). -/
def lowerStr (s : String) : String := String.mk (s.toList.map Char.toLower)

/-- The fixed indicator list of `_is_retryable_error`. -/
def retryable_errors : List String :=
  ["rate limit", "429", "quota exceeded", "exceeded", "timeout", "connection",
   "503", "502", "500", "internal server error"]

/-- Model of `SAIAProvider._is_retryable_error`: lowercase the message and
test whether any fixed indicator occurs in it as a substring. -/
def is_retryable_error (msg : String) : Bool :=
  retryable_errors.any (fun indicator => strContains (lowerStr msg) indicator)

/-- One `self._client.post(...)` call observed from the environment: either
a response (status code, whether the JSON body carries a non-empty
`choices` array, the extracted message content, the response headers) or a
raised transport exception with its message. -/
inductive PostResult where
  | resp (status : Nat) (hasChoices : Bool) (content : String)
      (headers : List (String × String))
  | exn (msg : String)
deriving DecidableEq

/-- Observable outcome of one `generate_content` call: a returned
`ModelResponse` content, a propagated exception, Python's implicit `None`
return (branches that fall off the end of the function), or exhaustion of
the supplied environment of POST outcomes. -/
inductive GCOutcome where
  | ok (content : String)
  | raised (msg : String)
  | noneReturned
  | noMorePosts
deriving DecidableEq

/-- Message of the `TypeError` raised inside `_update_key_usage` when it
compares `None < 10` (paraphrased; it contains no retryable indicator). -/
def typeErrorMsg : String := "unorderable types NoneType and int"

/-- Message of the `UnboundLocalError` raised by the retry branches of
`generate_content` whose `raise ValueError(f"... {data}")` references the
local `data` before assignment (paraphrased; no retryable indicator). -/
def unboundLocalMsg : String := "local variable data referenced before assignment"

/-- Message of the `ValueError` raised for a 200 response without choices
(the response-body text is abstracted away; no retryable indicator). -/
def invalidResponseMsg : String := "invalid saia response"

/-- Model of `SAIAProvider.generate_content` (source lines 404-630),
restricted to its rotation and retry skeleton.  Each HTTP POST consumes
one `PostResult` from the environment list.  The usage-tracking call runs
on every response before the status dispatch; a `TypeError` it raises is
caught by the outer handler.  On 429 the key is marked exhausted and one
inline retry runs with the next key; on ≥500 one inline retry runs without
marking; any exception whose message the classifier deems retryable leads
to mark-exhausted, rotation, and a recursive self-call on the remaining
environment — the source has no depth bound on this recursion.  The
result is paired with the number of logical attempts (self-invocations). -/
def generate_content (r : APIKeyRotator) (now : ℚ) :
    List PostResult → GCOutcome × Nat
  | [] => (.noMorePosts, 1)
  | p :: rest =>
    let sel := get_next_key r now false 0
    match p with
    | .exn msg =>
      if is_retryable_error msg then
        let r1 := mark_key_exhausted sel.state sel.key now
        let sel2 := get_next_key r1 now true 0
        let res := generate_content sel2.state now rest
        (res.1, res.2 + 1)
      else (.raised msg, 1)
    | .resp status hasChoices content headers =>
      match update_key_usage sel.state sel.key headers now with
      | .typeError r1 =>
        if is_retryable_error typeErrorMsg then
          let r2 := mark_key_exhausted r1 sel.key now
          let sel2 := get_next_key r2 now true 0
          let res := generate_content sel2.state now rest
          (res.1, res.2 + 1)
        else (.raised typeErrorMsg, 1)
      | .normal r1 =>
        if status = 200 then
          if hasChoices then (.ok content, 1)
          else if is_retryable_error invalidResponseMsg then
            let r2 := mark_key_exhausted r1 sel.key now
            let sel2 := get_next_key r2 now true 0
            let res := generate_content sel2.state now rest
            (res.1, res.2 + 1)
          else (.raised invalidResponseMsg, 1)
        else if status = 429 then
          let r2 := mark_key_exhausted r1 sel.key now
          let sel2 := get_next_key r2 now true 0
          match rest with
          | [] => (.noMorePosts, 1)
          | .exn msg2 :: rest2 =>
            if is_retryable_error msg2 then
              let r3 := mark_key_exhausted sel2.state sel2.key now
              let sel3 := get_next_key r3 now true 0
              let res := generate_content sel3.state now rest2
              (res.1, res.2 + 1)
            else (.raised msg2, 1)
          | .resp s2 hc2 c2 _h2 :: rest2 =>
            if s2 = 200 then
              if hc2 then (.ok c2, 1) else (.noneReturned, 1)
            else if is_retryable_error unboundLocalMsg then
              let r3 := mark_key_exhausted sel2.state sel2.key now
              let sel3 := get_next_key r3 now true 0
              let res := generate_content sel3.state now rest2
              (res.1, res.2 + 1)
            else (.raised unboundLocalMsg, 1)
        else if 500 ≤ status then
          let sel2 := get_next_key r1 now true 0
          match rest with
          | [] => (.noMorePosts, 1)
          | .exn msg2 :: rest2 =>
            if is_retryable_error msg2 then
              let r3 := mark_key_exhausted sel2.state sel2.key now
              let sel3 := get_next_key r3 now true 0
              let res := generate_content sel3.state now rest2
              (res.1, res.2 + 1)
            else (.raised msg2, 1)
          | .resp s2 hc2 c2 _h2 :: rest2 =>
            if s2 = 200 then
              if hc2 then (.ok c2, 1) else (.noneReturned, 1)
            else if is_retryable_error unboundLocalMsg then
              let r3 := mark_key_exhausted sel2.state sel2.key now
              let sel3 := get_next_key r3 now true 0
              let res := generate_content sel3.state now rest2
              (res.1, res.2 + 1)
            else (.raised unboundLocalMsg, 1)
        else
          let msg := "saia api error " ++ toString status
          if is_retryable_error msg then
            let r2 := mark_key_exhausted r1 sel.key now
            let sel2 := get_next_key r2 now true 0
            let res := generate_content sel2.state now rest
            (res.1, res.2 + 1)
          else (.raised msg, 1)

/-- Iterate `get_next_key` (with `skip_exhausted = false` and oracle `0`)
`n` times from a state, collecting the returned keys in call order. -/
def nextKeysList (r : APIKeyRotator) (now : ℚ) : Nat → List String × APIKeyRotator
  | 0 => ([], r)
  | n + 1 =>
    let res := get_next_key r now false 0
    let tailRes := nextKeysList res.state now n
    (res.key :: tailRes.1, tailRes.2)

def exR2 : APIKeyRotator :=
  { api_keys := ["k1", "k2"]
    strategy := .round_robin
    backoff_seconds := 60
    usage_trackers := [("k1", ({} : KeyUsageTracker)), ("k2", ({} : KeyUsageTracker))]
    current_index := 0 }


def exR4 : APIKeyRotator :=
  { api_keys := ["k1", "k2"]
    strategy := .round_robin
    backoff_seconds := 60
    usage_trackers := [("k1", { requests_remaining := some 0, is_exhausted := true, backoff_until := 5 }), ("k2", ({} : KeyUsageTracker))]
    current_index := 0 }


def exR5 : APIKeyRotator :=
  { api_keys := ["k1", "k2"]
    strategy := .round_robin
    backoff_seconds := 60
    usage_trackers := [("k1", ({} : KeyUsageTracker)), ("k2", { is_exhausted := true, backoff_until := 1000000 })]
    current_index := 0 }

/-- Headers carrying a parseable minute-window remaining value of 50. -/
def okHdrs : List (String × String) := [("x-ratelimit-remaining-minute", "50")]

/-- State the exception handler of `generate_content` recurses with: mark
the selected key exhausted, then rotate. -/
def nextAttemptState (r : APIKeyRotator) (now : ℚ) : APIKeyRotator :=
  (get_next_key
    (mark_key_exhausted (get_next_key r now false 0).state
      (get_next_key r now false 0).key now) now true 0).state

theorem lookup_some_mem {m : List (String × KeyUsageTracker)} {k : String}
    {t : KeyUsageTracker} (h : List.lookup k m = some t) : (k, t) ∈ m := by
  induction m with
  | nil => simp [List.lookup] at h
  | cons p ps ih =>
    obtain ⟨a, b⟩ := p
    simp only [List.lookup] at h
    by_cases hk : k = a
    · subst hk
      simp at h
      subst h
      exact List.mem_cons_self _ _
    · have hb : (k == a) = false := by simp [hk]
      rw [hb] at h
      simp at h
      exact List.mem_cons_of_mem _ (ih h)

theorem lookup_none_of_not_fst {m : List (String × KeyUsageTracker)} {k : String}
    (h : k ∉ m.map Prod.fst) : List.lookup k m = none := by
  induction m with
  | nil => rfl
  | cons p ps ih =>
    obtain ⟨a, b⟩ := p
    simp only [List.map_cons, List.mem_cons] at h
    push_neg at h
    simp only [List.lookup]
    have hb : (k == a) = false := by simp [h.1]
    rw [hb]
    exact ih h.2

/-- Helper for C1 and C2: the inverted guard makes `_update_key_usage`
return unchanged whenever a minute-window remaining value parses from the
headers. -/
theorem update_key_usage_noop_of_minute_present (r : APIKeyRotator) (k : String)
    (headers : List (String × String)) (now : ℚ)
    (h : (parse_rate_limit_headers headers now).remaining_minute ≠ none) :
    update_key_usage r k headers now = .normal r := by
  simp [update_key_usage, h]

theorem parse_okHdrs_minute (now : ℚ) :
    (parse_rate_limit_headers okHdrs now).remaining_minute = some 50 := rfl

theorem update_key_usage_okHdrs (r : APIKeyRotator) (k : String) (now : ℚ) :
    update_key_usage r k okHdrs now = .normal r :=
  update_key_usage_noop_of_minute_present r k okHdrs now
    (by rw [parse_okHdrs_minute]; simp)

theorem retry_timeout : is_retryable_error "timeout" = true := by decide

/-- C1: evaluation of `_update_key_usage` at the failing input.  With the
minute-window remaining header present (value 5, below the exhaustion
threshold) the call is a no-op (first conjunct) and the tracker keeps its
construction-time defaults (second conjunct), instead of receiving
`requestsRemaining = 5` and `isExhausted = true` as the claim — and the
repository's own test suite — states; with the header absent the call is
not a no-op either: it stores `None` into the tracker and raises
`TypeError` (third conjunct). -/
theorem C1_update_key_usage_inverted_guard :
    update_key_usage exR2 "k1" [("x-ratelimit-remaining-minute", "5")] 100 = .normal exR2 ∧
    List.lookup "k1" exR2.usage_trackers = some ({} : KeyUsageTracker) ∧
    update_key_usage exR2 "k1" [] 100 =
      .typeError { exR2 with usage_trackers :=
        [("k1", { requests_remaining := none, requests_limit := 1000,
                  last_reset_time := 100, last_used_time := 100,
                  is_exhausted := false, backoff_until := 0 }),
         ("k2", ({} : KeyUsageTracker))] } :=
  ⟨by decide, by decide, by decide⟩

/-- C2 counterexample: two consecutive retryable transport failures are
not surfaced as a final error; the handler recurses and the third attempt
succeeds, so `generate_content` performs three logical attempts and
returns the success — not the final error after at most one extra attempt
that the claim states. -/
theorem C2_counterexample_second_retryable_failure_not_surfaced :
    generate_content exR2 0
      [.exn "timeout", .exn "timeout", .resp 200 true "hi" okHdrs] = (.ok "hi", 3) := by
  decide

theorem gc_exn_step (r : APIKeyRotator) (now : ℚ) (msg : String) (rest : List PostResult)
    (h : is_retryable_error msg = true) :
    generate_content r now (.exn msg :: rest) =
      ((generate_content (nextAttemptState r now) now rest).1,
       (generate_content (nextAttemptState r now) now rest).2 + 1) := by
  have hstep : generate_content r now (.exn msg :: rest) =
      (if is_retryable_error msg = true then
        ((generate_content (nextAttemptState r now) now rest).1,
         (generate_content (nextAttemptState r now) now rest).2 + 1)
       else (.raised msg, 1)) := rfl
  rw [hstep, if_pos h]

theorem gc_success_step (r : APIKeyRotator) (now : ℚ) (c : String) (rest : List PostResult) :
    generate_content r now (.resp 200 true c okHdrs :: rest) = (.ok c, 1) := by
  cases rest with
  | nil => rfl
  | cons p2 rest2 =>
    cases p2 with
    | exn m2 => rfl
    | resp s2 hc2 c2 h2 => rfl

/-- C2 amended: the exception handler of `generate_content` retries by
unbounded self-recursion: for every `n`, an environment of `n` consecutive
retryable transport failures followed by a success yields the success
after exactly `n + 1` logical attempts — no failure is surfaced while the
failures stay retryable, and the attempt count grows without bound. -/
theorem C2_generate_content_unbounded_retry (n : Nat) (r : APIKeyRotator) (now : ℚ) :
    generate_content r now
      (List.replicate n (.exn "timeout") ++ [.resp 200 true "done" okHdrs]) =
    (.ok "done", n + 1) := by
  induction n generalizing r with
  | zero =>
    simp only [List.replicate, List.nil_append]
    exact gc_success_step r now "done" []
  | succ m ih =>
    rw [List.replicate_succ, List.cons_append, gc_exn_step _ _ _ _ retry_timeout,
      ih (nextAttemptState r now)]

/-- C9: any exception whose lowercased message contains one of the ten
fixed indicator substrings (enumerated here exactly as in the claim) is
classified retryable by `_is_retryable_error` — in particular any message
merely containing "exceeded". -/
theorem C9_retryable_on_indicator (msg indicator : String)
    (hmem : indicator ∈ ["rate limit", "429", "quota exceeded", "exceeded", "timeout",
                         "connection", "503", "502", "500", "internal server error"])
    (hsub : strContains (lowerStr msg) indicator = true) :
    is_retryable_error msg = true := by
  have hmem2 : indicator ∈ retryable_errors := by
    simpa [retryable_errors] using hmem
  simp only [is_retryable_error, List.any_eq_true]
  exact ⟨indicator, hmem2, hsub⟩

theorem C9_witness :
    ("exceeded" ∈ ["rate limit", "429", "quota exceeded", "exceeded", "timeout",
                   "connection", "503", "502", "500", "internal server error"]) ∧
    strContains (lowerStr "Context length exceeded for this request") "exceeded" = true ∧
    is_retryable_error "Context length exceeded for this request" = true :=
  ⟨by decide, by decide,
   C9_retryable_on_indicator "Context length exceeded for this request" "exceeded"
     (by decide) (by decide)⟩

/-- C10: for a key outside the configured key set, `_update_key_usage`
returns normally (no exception) with the rotator state — hence every
configured key's tracker — completely unchanged. -/
theorem C10_update_key_usage_unknown_key_noop (r : APIKeyRotator) (k : String)
    (headers : List (String × String)) (now : ℚ)
    (hwf : r.usage_trackers.map Prod.fst = r.api_keys) (hk : k ∉ r.api_keys) :
    update_key_usage r k headers now = .normal r := by
  have hl : List.lookup k r.usage_trackers = none :=
    lookup_none_of_not_fst (by rw [hwf]; exact hk)
  by_cases h : (parse_rate_limit_headers headers now).remaining_minute = none
  · simp [update_key_usage, h, hl]
  · exact update_key_usage_noop_of_minute_present r k headers now h

theorem getD_mod_mem (l : List String) (i : Nat) (h : l ≠ []) :
    l.getD (i % l.length) "" ∈ l := by
  have hpos : 0 < l.length := List.length_pos.mpr h
  have hlt : i % l.length < l.length := Nat.mod_lt _ hpos
  rw [List.getD_eq_getElem _ _ hlt]
  exact List.getElem_mem hlt

theorem pickMax_mem (r : APIKeyRotator) (best : String) (cs : List String) :
    pickMax r best cs ∈ best :: cs := by
  induction cs generalizing best with
  | nil => simp [pickMax]
  | cons c cs ih =>
    rw [pickMax]
    by_cases h : trackerHeadroom r best < trackerHeadroom r c
    · rw [if_pos h]
      rcases List.mem_cons.mp (ih c) with h1 | h1
    <;> simp [h1]
    · rw [if_neg h]
      rcases List.mem_cons.mp (ih best) with h1 | h1
    <;> simp [h1]

theorem selectFromCandidates_mem (r : APIKeyRotator) (cands : List String) (rnd : Nat)
    (h : cands ≠ []) : (selectFromCandidates r cands rnd).1 ∈ cands := by
  cases hs : r.strategy with
  | round_robin =>
    simp only [selectFromCandidates, hs]
    exact getD_mod_mem cands r.current_index h
  | least_used =>
    cases cands with
    | nil => exact absurd rfl h
    | cons c cs =>
      simp only [selectFromCandidates, hs]
      exact pickMax_mem r c cs
  | random =>
    simp only [selectFromCandidates, hs]
    exact getD_mod_mem cands rnd h

theorem selectFromCandidates_keys (r : APIKeyRotator) (cands : List String) (rnd : Nat) :
    (selectFromCandidates r cands rnd).2.api_keys = r.api_keys := by
  cases hs : r.strategy <;> simp [selectFromCandidates, hs]

theorem passKey_state (r : APIKeyRotator) (now : ℚ) (k : String) :
    (passKey r now k).2.api_keys = r.api_keys ∧
    (passKey r now k).2.strategy = r.strategy ∧
    (passKey r now k).2.backoff_seconds = r.backoff_seconds ∧
    (passKey r now k).2.current_index = r.current_index := by
  cases hl : List.lookup k r.usage_trackers with
  | none => simp [passKey, hl]
  | some t =>
    by_cases h1 : t.is_exhausted = false
    · by_cases h2 : t.backoff_until < now
      · simp [passKey, hl, h1, h2]
      · simp [passKey, hl, h1, h2]
    · simp [passKey, hl, h1]

theorem passKey_fst (r : APIKeyRotator) (now : ℚ) (k : String) (x : String)
    (hx : (passKey r now k).1 = some x) : x = k := by
  cases hl : List.lookup k r.usage_trackers with
  | none =>
    simp [passKey, hl] at hx
    exact hx.symm
  | some t =>
    by_cases h1 : t.is_exhausted = false
    · by_cases h2 : t.backoff_until < now
      · simp [passKey, hl, h1, h2] at hx
        exact hx.symm
      · simp [passKey, hl, h1, h2] at hx
        exact hx.symm
    · simp [passKey, hl, h1] at hx

theorem evalPassAux_state (now : ℚ) (ks : List String) :
    ∀ r : APIKeyRotator,
      (evalPassAux now r ks).2.api_keys = r.api_keys ∧
      (evalPassAux now r ks).2.strategy = r.strategy ∧
      (evalPassAux now r ks).2.backoff_seconds = r.backoff_seconds ∧
      (evalPassAux now r ks).2.current_index = r.current_index := by
  induction ks with
  | nil => intro r; simp [evalPassAux]
  | cons k ks ih =>
    intro r
    rcases hpk : passKey r now k with ⟨o, r1⟩
    have hp := passKey_state r now k
    rw [hpk] at hp
    have hi := ih r1
    rcases hev : evalPassAux now r1 ks with ⟨rest, r2⟩
    rw [hev] at hi
    simp only [evalPassAux, hpk, hev]
    exact ⟨hi.1.trans hp.1, hi.2.1.trans hp.2.1, hi.2.2.1.trans hp.2.2.1,
           hi.2.2.2.trans hp.2.2.2⟩

theorem evalPassAux_subset (now : ℚ) (ks : List String) :
    ∀ (r : APIKeyRotator) (x : String), x ∈ (evalPassAux now r ks).1 → x ∈ ks := by
  induction ks with
  | nil => intro r x hx; simp [evalPassAux] at hx
  | cons k ks ih =>
    intro r x hx
    rcases hpk : passKey r now k with ⟨o, r1⟩
    rcases hev : evalPassAux now r1 ks with ⟨rest, r2⟩
    simp only [evalPassAux, hpk, hev] at hx
    rcases List.mem_append.mp hx with h1 | h1
    · cases o with
      | none => simp at h1
      | some y =>
        simp at h1
        subst h1
        have : x = k := passKey_fst r now k x (by rw [hpk])
        simp [this]
    · exact List.mem_cons_of_mem _ (ih r1 x (by rw [hev]; exact h1))

/-- C3: for every rotator state with a non-empty configured key list,
`get_next_key` — under every `skipExhausted` flag, every time, and every
selection oracle — returns a key drawn from the configured key list
(never failing, never producing a non-key value), and the only blocking
it may perform is a single backoff interval: the time slept is either `0`
or exactly one `backoff_seconds`.  The strategy dispatch and post-sleep
path are modelled from the spec (the source file is truncated there). -/
theorem C3_get_next_key_total (r : APIKeyRotator) (now : ℚ) (skip : Bool) (rnd : Nat)
    (h : r.api_keys ≠ []) :
    (get_next_key r now skip rnd).key ∈ r.api_keys ∧
    ((get_next_key r now skip rnd).slept = 0 ∨
     (get_next_key r now skip rnd).slept = r.backoff_seconds) := by
  rcases hev : evalPass r now with ⟨avail, r1⟩
  have hst1 := evalPassAux_state now r.api_keys r
  rw [show evalPassAux now r r.api_keys = (avail, r1) from hev] at hst1
  by_cases ha : avail = []
  · subst ha
    cases skip with
    | false =>
      rcases hsel : selectFromCandidates r1 r1.api_keys rnd with ⟨key, r2⟩
      have hmem := selectFromCandidates_mem r1 r1.api_keys rnd (by rw [hst1.1]; exact h)
      rw [hsel] at hmem
      rw [hst1.1] at hmem
      have hkey : (get_next_key r now false rnd).key = key := by
        simp [get_next_key, hev, hsel]
      have hslept : (get_next_key r now false rnd).slept = 0 := by
        simp [get_next_key, hev, hsel]
      exact ⟨hkey ▸ hmem, Or.inl hslept⟩
    | true =>
      rcases hev2 : evalPass r1 (now + r.backoff_seconds) with ⟨avail2, r2⟩
      have hst2 := evalPassAux_state (now + r.backoff_seconds) r1.api_keys r1
      rw [show evalPassAux (now + r.backoff_seconds) r1 r1.api_keys = (avail2, r2) from hev2]
        at hst2
      by_cases ha2 : avail2 = []
      · subst ha2
        rcases hsel : selectFromCandidates r2 r2.api_keys rnd with ⟨key, r3⟩
        have hne2 : r2.api_keys ≠ [] := by rw [hst2.1, hst1.1]; exact h
        have hmem := selectFromCandidates_mem r2 r2.api_keys rnd hne2
        rw [hsel] at hmem
        rw [hst2.1, hst1.1] at hmem
        have hkey : (get_next_key r now true rnd).key = key := by
          simp [get_next_key, hev, hev2, hsel]
        have hslept : (get_next_key r now true rnd).slept = r.backoff_seconds := by
          simp [get_next_key, hev, hev2, hsel]
        exact ⟨hkey ▸ hmem, Or.inr hslept⟩
      · rcases hsel : selectFromCandidates r2 avail2 rnd with ⟨key, r3⟩
        have hmem := selectFromCandidates_mem r2 avail2 rnd ha2
        rw [hsel] at hmem
        have hsub : key ∈ r1.api_keys :=
          evalPassAux_subset (now + r.backoff_seconds) r1.api_keys r1 key
            (by rw [show evalPassAux (now + r.backoff_seconds) r1 r1.api_keys = (avail2, r2)
                 from hev2]
                exact hmem)
        rw [hst1.1] at hsub
        have hkey : (get_next_key r now true rnd).key = key := by
          simp [get_next_key, hev, hev2, hsel, ha2]
        have hslept : (get_next_key r now true rnd).slept = r.backoff_seconds := by
          simp [get_next_key, hev, hev2, hsel, ha2]
        exact ⟨hkey ▸ hsub, Or.inr hslept⟩
  · rcases hsel : selectFromCandidates r1 avail rnd with ⟨key, r2⟩
    have hmem := selectFromCandidates_mem r1 avail rnd ha
    rw [hsel] at hmem
    have hsub : key ∈ r.api_keys :=
      evalPassAux_subset now r.api_keys r key
        (by rw [show evalPassAux now r r.api_keys = (avail, r1) from hev]; exact hmem)
    have hkey : (get_next_key r now skip rnd).key = key := by
      simp [get_next_key, hev, hsel, ha]
    have hslept : (get_next_key r now skip rnd).slept = 0 := by
      simp [get_next_key, hev, hsel, ha]
    exact ⟨hkey ▸ hsub, Or.inl hslept⟩

theorem C3_witness :
    exR2.api_keys ≠ [] ∧
    ((get_next_key exR2 10 false 0).key ∈ exR2.api_keys ∧
     ((get_next_key exR2 10 false 0).slept = 0 ∨
      (get_next_key exR2 10 false 0).slept = exR2.backoff_seconds)) :=
  ⟨by decide, C3_get_next_key_total exR2 10 false 0 (by decide)⟩

/-- C4: evaluation of `get_next_key` at the failing input.  Key k1 is
marked exhausted and its backoff deadline (5) has already elapsed at call
time (10), yet the call selects k2 and leaves k1's tracker untouched
(still exhausted, `requests_remaining` still 0 instead of the limit): the
loop's backoff-expiry reset sits inside the branch for trackers that are
NOT exhausted, so the claimed eager reset of an exhausted key never
happens and the key does not become selectable again. -/
theorem C4_no_eager_reset_for_exhausted_key :
    (5 : ℚ) < 10 ∧
    (get_next_key exR4 10 false 0).key = "k2" ∧
    List.lookup "k1" (get_next_key exR4 10 false 0).state.usage_trackers =
      some { requests_remaining := some 0, requests_limit := 1000, last_reset_time := 0,
             last_used_time := 0, is_exhausted := true, backoff_until := 5 } :=
  ⟨by decide, by decide, by decide⟩

theorem lookup_updateTracker_self {m : List (String × KeyUsageTracker)} {k : String}
    {t0 t : KeyUsageTracker} (h : List.lookup k m = some t0) :
    List.lookup k (updateTracker k t m) = some t := by
  induction m with
  | nil => simp [List.lookup] at h
  | cons p ps ih =>
    obtain ⟨a, b⟩ := p
    by_cases hk : k = a
    · subst hk
      simp only [updateTracker, List.map_cons]
      simp [List.lookup]
    · have hb : (k == a) = false := by simp [hk]
      simp only [List.lookup, hb] at h
      simp only [updateTracker, List.map_cons]
      rw [if_neg (by simpa using fun hc => hk hc.symm)]
      simp only [List.lookup, hb]
      exact ih h

theorem lookup_updateTracker_other {m : List (String × KeyUsageTracker)} {k x : String}
    {t : KeyUsageTracker} (hx : x ≠ k) :
    List.lookup x (updateTracker k t m) = List.lookup x m := by
  induction m with
  | nil => rfl
  | cons p ps ih =>
    obtain ⟨a, b⟩ := p
    by_cases ha : a = k
    · subst ha
      simp only [updateTracker, List.map_cons, if_pos rfl]
      have hb : (x == a) = false := by simp [hx]
      simp only [List.lookup, hb]
      exact ih
    · simp only [updateTracker, List.map_cons]
      rw [if_neg (by simpa using ha)]
      simp only [List.lookup]
      cases hxb : x == a with
      | true => rfl
      | false => exact ih

theorem mark_key_exhausted_lookup (r : APIKeyRotator) (key : String) (now : ℚ)
    (tk : KeyUsageTracker) (hk : List.lookup key r.usage_trackers = some tk) :
    List.lookup key (mark_key_exhausted r key now).usage_trackers =
      some { tk with is_exhausted := true, backoff_until := now + r.backoff_seconds } := by
  simp only [mark_key_exhausted, hk]
  exact lookup_updateTracker_self hk

theorem mark_key_exhausted_lookup_other (r : APIKeyRotator) (key x : String) (now : ℚ)
    (hx : x ≠ key) :
    List.lookup x (mark_key_exhausted r key now).usage_trackers =
      List.lookup x r.usage_trackers := by
  cases hk : List.lookup key r.usage_trackers with
  | none => simp [mark_key_exhausted, hk]
  | some tk =>
    simp only [mark_key_exhausted, hk]
    exact lookup_updateTracker_other hx

theorem mark_key_exhausted_keys (r : APIKeyRotator) (key : String) (now : ℚ) :
    (mark_key_exhausted r key now).api_keys = r.api_keys := by
  cases hk : List.lookup key r.usage_trackers with
  | none => simp [mark_key_exhausted, hk]
  | some tk => simp [mark_key_exhausted, hk]

theorem passKey_lookup_other (r : APIKeyRotator) (now : ℚ) (k x : String) (hx : x ≠ k) :
    List.lookup x (passKey r now k).2.usage_trackers = List.lookup x r.usage_trackers := by
  cases hl : List.lookup k r.usage_trackers with
  | none => simp [passKey, hl]
  | some t =>
    by_cases h1 : t.is_exhausted = false
    · by_cases h2 : t.backoff_until < now
      · simp only [passKey, hl]
        rw [if_pos h1, if_pos h2]
        exact lookup_updateTracker_other hx
      · simp only [passKey, hl]
        rw [if_pos h1, if_neg h2]
    · simp only [passKey, hl]
      rw [if_neg h1]

theorem passKey_fst_of_fresh (r : APIKeyRotator) (now : ℚ) (k : String)
    (hf : ∀ t, List.lookup k r.usage_trackers = some t → t.is_exhausted = false) :
    (passKey r now k).1 = some k := by
  cases hl : List.lookup k r.usage_trackers with
  | none => simp [passKey, hl]
  | some t =>
    have h1 := hf t hl
    by_cases h2 : t.backoff_until < now
    · simp only [passKey, hl]
      rw [if_pos h1, if_pos h2]
    · simp only [passKey, hl]
      rw [if_pos h1, if_neg h2]

theorem passKey_pres_fresh (r : APIKeyRotator) (now : ℚ) (k0 x : String)
    (hf : ∀ t, List.lookup x r.usage_trackers = some t → t.is_exhausted = false) :
    ∀ t, List.lookup x (passKey r now k0).2.usage_trackers = some t →
      t.is_exhausted = false := by
  by_cases hx : x = k0
  · subst hx
    cases hl : List.lookup x r.usage_trackers with
    | none =>
      intro t ht
      rw [show (passKey r now x).2 = r from by simp [passKey, hl]] at ht
      exact hf t ht
    | some t0 =>
      have h1 : t0.is_exhausted = false := hf t0 hl
      by_cases h2 : t0.backoff_until < now
      · intro t ht
        have hlook : List.lookup x (passKey r now x).2.usage_trackers = some { t0 with is_exhausted := false, requests_remaining := some t0.requests_limit } := by
          simp only [passKey, hl]
          rw [if_pos h1, if_pos h2]
          exact lookup_updateTracker_self hl
        rw [hlook] at ht
        simp only [Option.some.injEq] at ht
        subst ht
        rfl
      · intro t ht
        rw [show (passKey r now x).2 = r from by
          simp only [passKey, hl]
          rw [if_pos h1, if_neg h2]] at ht
        exact hf t ht
  · intro t ht
    rw [passKey_lookup_other r now k0 x hx] at ht
    exact hf t ht

theorem evalPassAux_mem_of_fresh (now : ℚ) (ks : List String) :
    ∀ (r : APIKeyRotator) (x : String), x ∈ ks →
      (∀ t, List.lookup x r.usage_trackers = some t → t.is_exhausted = false) →
      x ∈ (evalPassAux now r ks).1 := by
  induction ks with
  | nil =>
    intro r x hx _
    simp at hx
  | cons k ks ih =>
    intro r x hx hf
    rcases hpk : passKey r now k with ⟨o, r1⟩
    rcases hev : evalPassAux now r1 ks with ⟨rest, r2⟩
    simp only [evalPassAux, hpk, hev]
    rcases List.mem_cons.mp hx with h1 | h1
    · subst h1
      have ho := passKey_fst_of_fresh r now x hf
      rw [hpk] at ho
      simp only at ho
      subst ho
      simp
    · have hf1 : ∀ t, List.lookup x r1.usage_trackers = some t → t.is_exhausted = false := by
        intro t ht
        refine passKey_pres_fresh r now k x hf t ?_
        rw [hpk]
        exact ht
      have := ih r1 x h1 hf1
      rw [hev] at this
      exact List.mem_append.mpr (Or.inr this)

theorem evalPassAux_not_mem_exhausted (now : ℚ) (ks : List String) :
    ∀ (r : APIKeyRotator) (key : String) (t : KeyUsageTracker),
      List.lookup key r.usage_trackers = some t → t.is_exhausted = true →
      key ∉ (evalPassAux now r ks).1 := by
  induction ks with
  | nil =>
    intro r key t _ _
    simp [evalPassAux]
  | cons k ks ih =>
    intro r key t hl ht
    rcases hpk : passKey r now k with ⟨o, r1⟩
    rcases hev : evalPassAux now r1 ks with ⟨rest, r2⟩
    simp only [evalPassAux, hpk, hev]
    intro hmem
    rcases List.mem_append.mp hmem with h1 | h1
    · cases o with
      | none => simp at h1
      | some y =>
        simp at h1
        subst h1
        have hk : key = k := passKey_fst r now k key (by rw [hpk])
        subst hk
        have hnone : (passKey r now key).1 = none := by
          simp only [passKey, hl]
          rw [if_neg (by simp [ht])]
        rw [hpk] at hnone
        simp at hnone
    · by_cases hxk : key = k
      · subst hxk
        have hr1 : r1 = r := by
          have h2 : (passKey r now key).2 = r := by
            simp only [passKey, hl]
            rw [if_neg (by simp [ht])]
          rw [hpk] at h2
          exact h2
        rw [hr1] at hev
        exact ih r key t hl ht (by rw [hev]; exact h1)
      · have hl1 : List.lookup key r1.usage_trackers = List.lookup key r.usage_trackers := by
          have h3 := passKey_lookup_other r now k key hxk
          rw [hpk] at h3
          exact h3
        exact ih r1 key t (by rw [hl1]; exact hl) ht (by rw [hev]; exact h1)

/-- C5 counterexample: with two configured keys where the other key (k2)
is exhausted under a long backoff, `markExhausted("k1")` immediately
followed by `nextKey(skipExhausted = true)` returns k1 itself even though
k1 is not the only configured key: both candidate passes come back empty,
and after the blocking backoff wait the selection falls back over the full
key list and yields the just-marked key. -/
theorem C5_counterexample_marked_key_returned :
    exR5.api_keys.length = 2 ∧
    (get_next_key (mark_key_exhausted exR5 "k1" 100) 100 true 0).key = "k1" :=
  ⟨by decide, by decide⟩

/-- C5 amended: `mark_key_exhausted` (modelled from the spec) forces
`isExhausted = true` and `backoffUntil = now + backoffSeconds` regardless
of the last observed remaining count, and an immediately following
`nextKey(skipExhausted = true)` never returns the marked key provided
some other configured key is not exhausted; when every key is exhausted,
the post-backoff fallback may return the marked key even if it is not the
only configured key. -/
theorem C5_marked_key_not_returned_when_other_available
    (r : APIKeyRotator) (key other : String) (now : ℚ) (rnd : Nat) (tk : KeyUsageTracker)
    (hk : List.lookup key r.usage_trackers = some tk)
    (hother : other ∈ r.api_keys) (hne : other ≠ key)
    (hfresh : ∀ t, List.lookup other r.usage_trackers = some t → t.is_exhausted = false) :
    List.lookup key (mark_key_exhausted r key now).usage_trackers =
      some { tk with is_exhausted := true, backoff_until := now + r.backoff_seconds } ∧
    (get_next_key (mark_key_exhausted r key now) now true rnd).key ≠ key := by
  have hk1 := mark_key_exhausted_lookup r key now tk hk
  refine ⟨hk1, ?_⟩
  have hkeys1 : (mark_key_exhausted r key now).api_keys = r.api_keys :=
    mark_key_exhausted_keys r key now
  have hother1 : other ∈ (mark_key_exhausted r key now).api_keys := by
    rw [hkeys1]; exact hother
  have hfresh1 : ∀ t, List.lookup other (mark_key_exhausted r key now).usage_trackers =
      some t → t.is_exhausted = false := by
    intro t ht
    rw [mark_key_exhausted_lookup_other r key other now hne] at ht
    exact hfresh t ht
  rcases hev : evalPass (mark_key_exhausted r key now) now with ⟨avail, r2⟩
  have hmemo : other ∈ avail := by
    have hm := evalPassAux_mem_of_fresh now (mark_key_exhausted r key now).api_keys
      (mark_key_exhausted r key now) other hother1 hfresh1
    rw [show evalPassAux now (mark_key_exhausted r key now)
      (mark_key_exhausted r key now).api_keys = (avail, r2) from hev] at hm
    exact hm
  have hnotkey : key ∉ avail := by
    have hn := evalPassAux_not_mem_exhausted now (mark_key_exhausted r key now).api_keys
      (mark_key_exhausted r key now) key _ hk1 rfl
    rw [show evalPassAux now (mark_key_exhausted r key now)
      (mark_key_exhausted r key now).api_keys = (avail, r2) from hev] at hn
    exact hn
  have hne2 : avail ≠ [] := by
    intro hh
    rw [hh] at hmemo
    simp at hmemo
  rcases hsel : selectFromCandidates r2 avail rnd with ⟨k2, r3⟩
  have hmem := selectFromCandidates_mem r2 avail rnd hne2
  rw [hsel] at hmem
  have hkey : (get_next_key (mark_key_exhausted r key now) now true rnd).key = k2 := by
    simp [get_next_key, hev, hsel, hne2]
  rw [hkey]
  intro hcontra
  exact hnotkey (hcontra ▸ hmem)

theorem C5_witness :
    List.lookup "k1" exR2.usage_trackers = some ({} : KeyUsageTracker) ∧
    ("k2" ∈ exR2.api_keys ∧ "k2" ≠ "k1") ∧
    (List.lookup "k1" (mark_key_exhausted exR2 "k1" 100).usage_trackers =
      some { ({} : KeyUsageTracker) with is_exhausted := true, backoff_until := 100 + exR2.backoff_seconds } ∧
     (get_next_key (mark_key_exhausted exR2 "k1" 100) 100 true 0).key ≠ "k1") :=
  ⟨by decide, ⟨by decide, by decide⟩,
   C5_marked_key_not_returned_when_other_available exR2 "k1" "k2" 100 0 {} (by decide)
     (by decide) (by decide)
     (by
       intro t ht
       rw [show List.lookup "k2" exR2.usage_trackers = some ({} : KeyUsageTracker)
         from by decide] at ht
       simp only [Option.some.injEq] at ht
       subst ht
       rfl)⟩

theorem updateTracker_all_fresh {m : List (String × KeyUsageTracker)} {k : String}
    {t : KeyUsageTracker} (hm : ∀ p ∈ m, p.2.is_exhausted = false)
    (ht : t.is_exhausted = false) :
    ∀ p ∈ updateTracker k t m, p.2.is_exhausted = false := by
  intro p hp
  rcases List.mem_map.mp hp with ⟨q, hq, hfq⟩
  by_cases hqk : q.1 = k
  · rw [← hfq, if_pos hqk]
    exact ht
  · rw [← hfq, if_neg hqk]
    exact hm q hq

theorem passKey_all_fresh (r : APIKeyRotator) (now : ℚ) (k : String)
    (hm : ∀ p ∈ r.usage_trackers, p.2.is_exhausted = false) :
    ∀ p ∈ (passKey r now k).2.usage_trackers, p.2.is_exhausted = false := by
  cases hl : List.lookup k r.usage_trackers with
  | none =>
    simp only [passKey, hl]
    exact hm
  | some t =>
    have h1 : t.is_exhausted = false := hm (k, t) (lookup_some_mem hl)
    by_cases h2 : t.backoff_until < now
    · simp only [passKey, hl]
      rw [if_pos h1, if_pos h2]
      exact updateTracker_all_fresh hm rfl
    · simp only [passKey, hl]
      rw [if_pos h1, if_neg h2]
      exact hm

theorem evalPassAux_all_fresh (now : ℚ) (ks : List String) :
    ∀ r : APIKeyRotator, (∀ p ∈ r.usage_trackers, p.2.is_exhausted = false) →
      (evalPassAux now r ks).1 = ks ∧
      (∀ p ∈ (evalPassAux now r ks).2.usage_trackers, p.2.is_exhausted = false) := by
  induction ks with
  | nil =>
    intro r hm
    exact ⟨rfl, by simpa [evalPassAux] using hm⟩
  | cons k ks ih =>
    intro r hm
    rcases hpk : passKey r now k with ⟨o, r1⟩
    have ho : o = some k := by
      have hh := passKey_fst_of_fresh r now k (fun t ht => hm (k, t) (lookup_some_mem ht))
      rw [hpk] at hh
      exact hh
    have hm1 : ∀ p ∈ r1.usage_trackers, p.2.is_exhausted = false := by
      have hh := passKey_all_fresh r now k hm
      rw [hpk] at hh
      exact hh
    rcases hev : evalPassAux now r1 ks with ⟨rest, r2⟩
    have hi := ih r1 hm1
    rw [hev] at hi
    simp only [evalPassAux, hpk, hev]
    subst ho
    refine ⟨?_, hi.2⟩
    have hrest : rest = ks := hi.1
    simp [hrest]

theorem get_next_key_round_robin (r : APIKeyRotator) (now : ℚ) (skip : Bool) (rnd : Nat)
    (hm : ∀ p ∈ r.usage_trackers, p.2.is_exhausted = false)
    (hne : r.api_keys ≠ []) (hs : r.strategy = .round_robin) :
    (get_next_key r now skip rnd).key =
      r.api_keys.getD (r.current_index % r.api_keys.length) "" ∧
    (get_next_key r now skip rnd).state.api_keys = r.api_keys ∧
    (get_next_key r now skip rnd).state.current_index = r.current_index + 1 ∧
    (get_next_key r now skip rnd).state.strategy = .round_robin ∧
    (∀ p ∈ (get_next_key r now skip rnd).state.usage_trackers,
      p.2.is_exhausted = false) := by
  rcases hev : evalPass r now with ⟨avail, r1⟩
  have hall := evalPassAux_all_fresh now r.api_keys r hm
  rw [show evalPassAux now r r.api_keys = (avail, r1) from hev] at hall
  have hst := evalPassAux_state now r.api_keys r
  rw [show evalPassAux now r r.api_keys = (avail, r1) from hev] at hst
  have havail : avail = r.api_keys := hall.1
  have hne2 : avail ≠ [] := by rw [havail]; exact hne
  have hs1 : r1.strategy = RotationStrategy.round_robin := hst.2.1.trans hs
  have hres : get_next_key r now skip rnd =
      ⟨avail.getD (r1.current_index % avail.length) "", none,
       { r1 with current_index := r1.current_index + 1 }, 0⟩ := by
    simp [get_next_key, hev, hne2, selectFromCandidates, hs1]
  rw [hres]
  refine ⟨?_, hst.1, ?_, hs1, hall.2⟩
  · rw [havail, hst.2.2.2]
  · rw [hst.2.2.2]

theorem nextKeysList_round_robin (now : ℚ) (n : Nat) :
    ∀ r : APIKeyRotator, (∀ p ∈ r.usage_trackers, p.2.is_exhausted = false) →
      r.api_keys ≠ [] → r.strategy = .round_robin →
      (nextKeysList r now n).1 =
        (List.range n).map
          (fun i => r.api_keys.getD ((r.current_index + i) % r.api_keys.length) "") ∧
      (nextKeysList r now n).2.current_index = r.current_index + n := by
  induction n with
  | zero =>
    intro r _ _ _
    simp [nextKeysList]
  | succ m ih =>
    intro r hm hne hs
    have hg := get_next_key_round_robin r now false 0 hm hne hs
    have hih := ih (get_next_key r now false 0).state hg.2.2.2.2
      (by rw [hg.2.1]; exact hne) hg.2.2.2.1
    constructor
    · simp only [nextKeysList]
      rw [hg.1, hih.1, List.range_succ_eq_map, List.map_cons, List.map_map]
      congr 1
      rw [hg.2.1, hg.2.2.1]
      apply List.map_congr_left
      intro i _
      simp only [Function.comp_apply, Nat.succ_eq_add_one]
      rw [show r.current_index + 1 + i = r.current_index + (i + 1) from by omega]
    · simp only [nextKeysList]
      rw [hih.2, hg.2.2.1]
      omega

theorem map_range_getD_eq_rotate (l : List String) (c : Nat) (h : l ≠ []) :
    (List.range l.length).map (fun i => l.getD ((c + i) % l.length) "") = l.rotate c := by
  have hN : 0 < l.length := List.length_pos.mpr h
  apply List.ext_getElem
  · simp
  · intro i h1 h2
    simp only [List.getElem_map, List.getElem_range]
    rw [List.getElem_rotate]
    rw [List.getD_eq_getElem _ _ (Nat.mod_lt _ hN), Nat.add_comm c i]

/-- C6: under round-robin with every tracker non-exhausted and distinct
configured keys, a window of N consecutive `nextKey` calls (N = number of
configured keys) returns each configured key exactly once, and the shared
cursor advances by exactly one slot per call — by N over the window —
with selection indexing modulo the candidate-list length.  The cursor and
strategy dispatch are modelled from the spec (the source is truncated
before them). -/
theorem C6_round_robin_cycle (r : APIKeyRotator) (now : ℚ)
    (hm : ∀ p ∈ r.usage_trackers, p.2.is_exhausted = false)
    (hne : r.api_keys ≠ []) (hs : r.strategy = .round_robin)
    (hnodup : r.api_keys.Nodup) :
    (∀ k ∈ r.api_keys, (nextKeysList r now r.api_keys.length).1.count k = 1) ∧
    (nextKeysList r now r.api_keys.length).2.current_index =
      r.current_index + r.api_keys.length := by
  have hlist := nextKeysList_round_robin now r.api_keys.length r hm hne hs
  refine ⟨?_, hlist.2⟩
  intro k hk
  rw [hlist.1, map_range_getD_eq_rotate r.api_keys r.current_index hne,
    (List.rotate_perm r.api_keys r.current_index).count_eq]
  exact List.count_eq_one_of_mem hnodup hk

theorem C6_witness :
    (∀ p ∈ exR2.usage_trackers, p.2.is_exhausted = false) ∧
    exR2.api_keys ≠ [] ∧ exR2.strategy = .round_robin ∧ exR2.api_keys.Nodup ∧
    ((∀ k ∈ exR2.api_keys,
        (nextKeysList exR2 10 exR2.api_keys.length).1.count k = 1) ∧
     (nextKeysList exR2 10 exR2.api_keys.length).2.current_index =
       exR2.current_index + exR2.api_keys.length) :=
  ⟨by decide, by decide, by decide, by decide,
   C6_round_robin_cycle exR2 10 (by decide) (by decide) (by decide) (by decide)⟩

theorem pyStrip_empty : pyStrip "" = "" := rfl

theorem cleaned_eq (ks : List String) :
    (ks.filter (fun k => k != "" && pyStrip k != "")).map pyStrip =
    (ks.map pyStrip).filter (fun s => s != "") := by
  induction ks with
  | nil => rfl
  | cons k ks ih =>
    by_cases h : pyStrip k = ""
    · have hcond : (k != "" && pyStrip k != "") = false := by simp [h]
      have hpc : (pyStrip k != "") = false := by simp [h]
      simp [List.filter_cons, hcond, hpc, ih]
    · have hk : k ≠ "" := by
        intro he
        rw [he, pyStrip_empty] at h
        exact h rfl
      have hcond : (k != "" && pyStrip k != "") = true := by simp [hk, h]
      have hpc : (pyStrip k != "") = true := by simp [h]
      simp [List.filter_cons, hcond, hpc, hk, ih]

theorem dedupFirst_nodup (l : List String) : (dedupFirst l).Nodup := by
  induction l with
  | nil => simp [dedupFirst]
  | cons k ks ih =>
    rw [dedupFirst]
    refine List.nodup_cons.mpr ⟨?_, List.Nodup.filter _ ih⟩
    intro hmem
    rcases List.mem_filter.mp hmem with ⟨_, hcond⟩
    simp at hcond

/-- C7: construction succeeds whenever some input trims to a non-blank
string, and the registry's ordered key sequence is then exactly the
deduplicated (first occurrence kept, order preserved) list of the trimmed
non-blank inputs — duplicate-free, so its length is the number of such
distinct values; when nothing survives trimming (including the empty
input list) construction fails with the configuration error. -/
theorem C7_constructor (ks : List String) (strategy : RotationStrategy) (b t0 : ℚ) :
    ((ks.map pyStrip).filter (fun s => s != "") ≠ [] →
      ∃ r, APIKeyRotator.init ks strategy b t0 = .ok r ∧
        r.api_keys = dedupFirst ((ks.map pyStrip).filter (fun s => s != "")) ∧
        r.api_keys.Nodup) ∧
    ((ks.map pyStrip).filter (fun s => s != "") = [] →
      APIKeyRotator.init ks strategy b t0 = .error .configurationError) := by
  by_cases hks : ks = []
  · subst hks
    refine ⟨fun hne => absurd rfl hne, fun _ => ?_⟩
    simp [APIKeyRotator.init]
  · have hinit : APIKeyRotator.init ks strategy b t0 =
        (if dedupFirst ((ks.map pyStrip).filter (fun s => s != "")) = [] then
          Except.error RotatorError.configurationError
         else Except.ok
           { api_keys := dedupFirst ((ks.map pyStrip).filter (fun s => s != ""))
             strategy := strategy
             backoff_seconds := b
             usage_trackers :=
               (dedupFirst ((ks.map pyStrip).filter (fun s => s != ""))).map
                 (fun k => (k, { last_reset_time := t0, last_used_time := t0 }))
             current_index := 0 }) := by
      simp [APIKeyRotator.init, hks, cleaned_eq]
    constructor
    · intro hne
      have hdne : dedupFirst ((ks.map pyStrip).filter (fun s => s != "")) ≠ [] := by
        cases hl : (ks.map pyStrip).filter (fun s => s != "") with
        | nil => exact absurd hl hne
        | cons a as => simp [dedupFirst]
      rw [hinit, if_neg hdne]
      exact ⟨_, rfl, rfl, dedupFirst_nodup _⟩
    · intro hempty
      rw [hinit, hempty]
      simp [dedupFirst]

theorem C7_witness :
    ((["  k1  ", "", "k1", "k2"].map pyStrip).filter (fun s => s != "") ≠ []) ∧
    (∃ r, APIKeyRotator.init ["  k1  ", "", "k1", "k2"] .round_robin 60 0 = .ok r ∧
       r.api_keys =
         dedupFirst ((["  k1  ", "", "k1", "k2"].map pyStrip).filter (fun s => s != "")) ∧
       r.api_keys.Nodup) :=
  ⟨by decide, (C7_constructor ["  k1  ", "", "k1", "k2"] .round_robin 60 0).1 (by decide)⟩

theorem all_digits_takeWhile (l : List Char) (h : l.all isDigitChar = true) :
    l.takeWhile isDigitChar = l := by
  induction l with
  | nil => rfl
  | cons c cs ih =>
    simp only [List.all_cons, Bool.and_eq_true] at h
    simp [List.takeWhile_cons, h.1, ih h.2]

theorem all_digits_dropWhile (l : List Char) (h : l.all isDigitChar = true) :
    l.dropWhile isDigitChar = [] := by
  induction l with
  | nil => rfl
  | cons c cs ih =>
    simp only [List.all_cons, Bool.and_eq_true] at h
    simp [List.dropWhile_cons, h.1, ih h.2]

theorem parseDigits_inv (l : List Char) (m : Nat) (h : parseDigits l = some m) :
    l ≠ [] ∧ l.all isDigitChar = true := by
  unfold parseDigits at h
  by_cases hc : l ≠ [] ∧ l.all isDigitChar = true
  · exact hc
  · rw [if_neg (by simpa using hc)] at h
    cases h

theorem parseUnsignedFloat_of_digits (l : List Char) (hne : l ≠ [])
    (h : l.all isDigitChar = true) :
    parseUnsignedFloat l = some (mkRat (natOfDigits l) 1) := by
  unfold parseUnsignedFloat
  rw [all_digits_dropWhile l h]
  simp only [all_digits_takeWhile l h]
  rw [if_neg hne]

theorem pyParseFloat_of_int (s : String) (n : Int) (h : pyParseInt s = some n) :
    ∃ v, pyParseFloat s = some v := by
  unfold pyParseInt at h
  unfold pyParseFloat
  cases hl : (pyStrip s).toList with
  | nil =>
    rw [hl] at h
    cases h
  | cons c rest =>
    rw [hl] at h
    dsimp only at h ⊢
    by_cases hplus : c = '+'
    · rw [if_pos hplus] at h
      rw [if_pos hplus]
      rcases Option.map_eq_some'.mp h with ⟨m, hm, _⟩
      have hinv := parseDigits_inv rest m hm
      exact ⟨_, parseUnsignedFloat_of_digits rest hinv.1 hinv.2⟩
    · by_cases hminus : c = '-'
      · rw [if_neg hplus, if_pos hminus] at h
        rw [if_neg hplus, if_pos hminus]
        rcases Option.map_eq_some'.mp h with ⟨m, hm, _⟩
        have hinv := parseDigits_inv rest m hm
        rw [parseUnsignedFloat_of_digits rest hinv.1 hinv.2]
        exact ⟨_, rfl⟩
      · rw [if_neg hplus, if_neg hminus] at h
        rw [if_neg hplus, if_neg hminus]
        rcases Option.map_eq_some'.mp h with ⟨m, hm, _⟩
        have hinv := parseDigits_inv (c :: rest) m hm
        exact ⟨_, parseUnsignedFloat_of_digits (c :: rest) hinv.1 hinv.2⟩

theorem pyParseFloat_none_int (s : String) (h : pyParseFloat s = none) :
    pyParseInt s = none := by
  cases hi : pyParseInt s with
  | none => rfl
  | some n =>
    rcases pyParseFloat_of_int s n hi with ⟨v, hv⟩
    rw [hv] at h
    cases h

theorem setIntField_none_start (headers : List (String × String)) (name : String) :
    setIntField none headers name = (headerLookup headers name).bind pyParseInt := by
  cases h : headerLookup headers name with
  | none => simp [setIntField, h]
  | some s => cases hp : pyParseInt s <;> simp [setIntField, h, hp]

/-- C8: the header parser is a total function on arbitrary header maps
(never raising — conversion failures are absorbed): each recognized
integer field equals the parse of its header value when present and
parseable, and is left unset (`none`) when the header is absent or its
value fails conversion; and a parseable reset value `v` is stored as the
absolute timestamp `now + v`, never as the raw duration, with an
unparseable or absent reset left unset. -/
theorem C8_parse_rate_limit_headers_total (headers : List (String × String)) (now : ℚ) :
    ((parse_rate_limit_headers headers now).limit_minute =
       (headerLookup headers "x-ratelimit-limit-minute").bind pyParseInt ∧
     (parse_rate_limit_headers headers now).limit_hour =
       (headerLookup headers "x-ratelimit-limit-hour").bind pyParseInt ∧
     (parse_rate_limit_headers headers now).limit_day =
       (headerLookup headers "x-ratelimit-limit-day").bind pyParseInt ∧
     (parse_rate_limit_headers headers now).remaining_minute =
       (headerLookup headers "x-ratelimit-remaining-minute").bind pyParseInt ∧
     (parse_rate_limit_headers headers now).remaining_hour =
       (headerLookup headers "x-ratelimit-remaining-hour").bind pyParseInt ∧
     (parse_rate_limit_headers headers now).remaining_day =
       (headerLookup headers "x-ratelimit-remaining-day").bind pyParseInt) ∧
    (∀ s v, headerLookup headers "ratelimit-reset" = some s → pyParseFloat s = some v →
      (parse_rate_limit_headers headers now).reset_time = some (now + v)) ∧
    (∀ s, headerLookup headers "ratelimit-reset" = some s → pyParseFloat s = none →
      (parse_rate_limit_headers headers now).reset_time = none) ∧
    (headerLookup headers "ratelimit-reset" = none →
      (parse_rate_limit_headers headers now).reset_time = none) := by
  refine ⟨?_, ?_, ?_, ?_⟩
  · cases h : headerLookup headers "ratelimit-reset" with
    | none => simp [parse_rate_limit_headers, h, setIntField_none_start]
    | some s =>
      cases hp : pyParseFloat s <;>
        simp [parse_rate_limit_headers, h, hp, setIntField_none_start]
  · intro s v hs hv
    simp [parse_rate_limit_headers, hs, hv]
  · intro s hs hf
    have hi : pyParseInt s = none := pyParseFloat_none_int s hf
    simp [parse_rate_limit_headers, hs, hf, setIntField, hi]
  · intro hnone
    simp [parse_rate_limit_headers, hnone, setIntField]

theorem C8_witness :
    ((parse_rate_limit_headers
        [("x-ratelimit-remaining-minute", "abc"), ("ratelimit-reset", "30")] 5).remaining_minute =
      (headerLookup [("x-ratelimit-remaining-minute", "abc"), ("ratelimit-reset", "30")]
        "x-ratelimit-remaining-minute").bind pyParseInt) ∧
    headerLookup [("x-ratelimit-remaining-minute", "abc"), ("ratelimit-reset", "30")]
      "ratelimit-reset" = some "30" ∧
    pyParseFloat "30" = some (mkRat 30 1) ∧
    (parse_rate_limit_headers
      [("x-ratelimit-remaining-minute", "abc"), ("ratelimit-reset", "30")] 5).reset_time =
      some (5 + mkRat 30 1) :=
  ⟨(C8_parse_rate_limit_headers_total
      [("x-ratelimit-remaining-minute", "abc"), ("ratelimit-reset", "30")] 5).1.2.2.2.1,
   by decide, by decide,
   (C8_parse_rate_limit_headers_total
      [("x-ratelimit-remaining-minute", "abc"), ("ratelimit-reset", "30")] 5).2.1 "30"
     (mkRat 30 1) (by decide) (by decide)⟩

theorem C10_witness :
    exR2.usage_trackers.map Prod.fst = exR2.api_keys ∧ "zz" ∉ exR2.api_keys ∧
    update_key_usage exR2 "zz" [] 5 = .normal exR2 :=
  ⟨by decide, by decide,
   C10_update_key_usage_unknown_key_noop exR2 "zz" [] 5 (by decide) (by decide)⟩
